import Mathlib

/-!
Verification of the abot language core: anaphora resolution (`addContext`,
`getContextObject`), tokenization (`SentenceFields`) and gazetteer place
extraction (`ExtractCities`, `bigrams`).

Go values are embedded as follows: Go strings become `String` (rune and byte
positions coincide on the ASCII data exercised here), Go slices become `List`,
`nil` pointers become `Option`, and fallible calls return `Except Err`.
The relational store is embedded as an explicit list of rows; `db.Get`
returning `sql.ErrNoRows` on an empty result set (visible in the source at
`GetLastRoute`, which filters that error out) is `Err.noRows`.
-/

namespace Abot

/-- Errors of the core: `ErrMissingUser`, the no-rows error `sql.ErrNoRows`
produced by `db.Get` on an empty result set, an invalid-column query error,
the `unknown type found for pronoun` error of `addContext`, and opaque
storage-layer failures. -/
inductive Err
  | missingUser
  | noRows
  | badColumn
  | unknownPronoun
  | storage (msg : String)
  deriving DecidableEq, Repr

/-- Modelled from the spec: the four entity categories of a StructuredInput
(the `nlp` package holding `ObjectI`, `ActorI`, `TimeI`, `PlaceI` is not part
of the given sources). -/
inductive Category
  | ObjectI
  | ActorI
  | TimeI
  | PlaceI
  deriving DecidableEq, Repr

/-- Modelled from the spec: the fixed pronoun-to-category table
(`nlp.Pronouns`). The spec pins the entry mapping the token for an object
pronoun to Objects; the remaining entries are representative members of the
fixed vocabulary, one per category. A token absent from the table has no
category, which `addContext` rejects in its `default` branch. -/
def Pronouns (w : String) : Option Category :=
  if w = r"it" ∨ w = r"that" then some Category.ObjectI
  else if w = r"he" ∨ w = r"she" ∨ w = r"him" ∨ w = r"her" then some Category.ActorI
  else if w = r"then" then some Category.TimeI
  else if w = r"there" then some Category.PlaceI
  else none

/-- Modelled from the spec: `nlp.StructuredInput` — four ordered category
lists plus the pronoun tokens found in the utterance (the `Pronouns()`
method's result). -/
structure StructuredInput where
  Objects : List String
  Actors : List String
  Times : List String
  Places : List String
  Pronouns : List String
  deriving DecidableEq, Repr

/-- Modelled from the spec: `nlp.StringSlice.Last` — the last element of the
sequence, or the empty string when the sequence is empty. -/
def StringSlice.Last (l : List String) : String :=
  l.getLastD (r"")

/-- The user reference: only its numeric identifier is consulted. -/
structure User where
  ID : Nat
  deriving DecidableEq, Repr

/-- One row of the `inputs` table: a prior turn of a user, with the four
array-valued category columns. -/
structure InputRecord where
  userID : Nat
  Objects : List String
  Actors : List String
  Times : List String
  Places : List String
  deriving DecidableEq, Repr

/-- Selects a category column of a row, as the `SELECT` of the interpolated
column name does. -/
def recColumn (r : InputRecord) : Category → List String
  | Category.ObjectI => r.Objects
  | Category.ActorI => r.Actors
  | Category.TimeI => r.Times
  | Category.PlaceI => r.Places

/-- Resolves the interpolated column-name string of `getContextObject` to a
column; any other string is an invalid column. -/
def columnOf (datatype : String) : Option Category :=
  if datatype = r"objects" then some Category.ObjectI
  else if datatype = r"actors" then some Category.ActorI
  else if datatype = r"times" then some Category.TimeI
  else if datatype = r"places" then some Category.PlaceI
  else none

/-- The rows satisfying the WHERE clause
`userid=$1 AND array_length(objects, 1) > 0`, in storage order. -/
def qualifying (db : List InputRecord) (uid : Nat) : List InputRecord :=
  db.filter (fun r => r.userID == uid && !r.Objects.isEmpty)

/-- Embedding of `getContextObject`: a nil user yields `ErrMissingUser`
before any query; otherwise `db.Get` runs the qualifying-rows query and
returns its first row, failing with `sql.ErrNoRows` when no row qualifies;
the requested column of that row is reduced with `StringSlice.Last`.
The `si` argument is received and ignored, as in the source. -/
def getContextObject (db : List InputRecord) (u : Option User)
    (si : StructuredInput) (datatype : String) : Except Err String :=
  match u with
  | none => Except.error Err.missingUser
  | some usr =>
    match columnOf datatype with
    | none => Except.error Err.badColumn
    | some c =>
      match qualifying db usr.ID with
      | [] => Except.error Err.noRows
      | r :: _ => Except.ok (StringSlice.Last (recColumn r c))

/-- The column-name string `addContext` passes to `getContextObject` for a
category: the four switch cases use `objects`, `actors`, `times`, `places`
respectively. -/
def catColumn : Category → String
  | Category.ObjectI => r"objects"
  | Category.ActorI => r"actors"
  | Category.TimeI => r"times"
  | Category.PlaceI => r"places"

/-- The category list of a StructuredInput selected by category. -/
def catList (si : StructuredInput) : Category → List String
  | Category.ObjectI => si.Objects
  | Category.ActorI => si.Actors
  | Category.TimeI => si.Times
  | Category.PlaceI => si.Places

/-- The in-place rewrite of one switch case of `addContext`: every element of
the category list that equals the pronoun token `w` is overwritten with the
antecedent `ctx`; the other three lists and the pronoun tokens are untouched.
The four Go cases are identical up to the category, factored here through
`Category`. -/
def rewriteCat (si : StructuredInput) (c : Category) (w ctx : String) :
    StructuredInput :=
  match c with
  | Category.ObjectI =>
    { si with Objects := si.Objects.map (fun o => if o = w then ctx else o) }
  | Category.ActorI =>
    { si with Actors := si.Actors.map (fun o => if o = w then ctx else o) }
  | Category.TimeI =>
    { si with Times := si.Times.map (fun o => if o = w then ctx else o) }
  | Category.PlaceI =>
    { si with Places := si.Places.map (fun o => if o = w then ctx else o) }

/-- The loop of `addContext` over the pronoun tokens. Each iteration switches
on the pronoun's table category (the `default` branch returning the
unknown-pronoun error), asks `getContextObject` for the antecedent with the
current, possibly already mutated, StructuredInput, propagates lookup errors,
returns silently on an empty antecedent, and otherwise rewrites the category
list and continues. -/
def addContextLoop (db : List InputRecord) (u : Option User) :
    StructuredInput → List String → StructuredInput × Option Err
  | si, [] => (si, none)
  | si, w :: ws =>
    match Pronouns w with
    | none => (si, some Err.unknownPronoun)
    | some c =>
      match getContextObject db u si (catColumn c) with
      | Except.error e => (si, some e)
      | Except.ok ctx =>
        if ctx = r"" then (si, none)
        else addContextLoop db u (rewriteCat si c w ctx) ws

/-- The message being processed: the fields of `dt.Msg` that the embedded
operations read. -/
structure Msg where
  Sentence : String
  User : Option User
  StructuredInput : StructuredInput
  Stems : List String
  deriving DecidableEq, Repr

/-- Embedding of `addContext`: runs the resolution loop over the pronoun
tokens of the message's StructuredInput and returns the (possibly mutated)
message together with the error, if any. -/
def addContext (db : List InputRecord) (m : Msg) : Msg × Option Err :=
  let r := addContextLoop db m.User m.StructuredInput m.StructuredInput.Pronouns
  ({ m with StructuredInput := r.1 }, r.2)

/-- The punctuation runes of `SentenceFields`, the cases of its inner switch:
apostrophe, double quote, comma, period, colon, semicolon, bang, question
mark. -/
def sentencePunct (c : Char) : Bool :=
  c = '\x27' ∨ c = '\x22' ∨ c = ',' ∨ c = '.' ∨ c = ':' ∨ c = ';' ∨ c = '!' ∨ c = '?'

/-- A whitespace rune, as `strings.Fields` (Unicode whitespace; the ASCII
cases suffice for the data handled here). -/
def goIsSpace (c : Char) : Bool :=
  c = ' ' ∨ c = '\t' ∨ c = '\n' ∨ c = '\x0b' ∨ c = '\x0c' ∨ c = '\r'

/-- Accumulating splitter behind `goFields`: splits a rune sequence around
maximal runs of whitespace, producing no empty fields. -/
def goFieldsAux (acc : List Char) : List Char → List (List Char)
  | [] => if acc.isEmpty then [] else [acc.reverse]
  | c :: cs =>
    if goIsSpace c then
      if acc.isEmpty then goFieldsAux [] cs
      else acc.reverse :: goFieldsAux [] cs
    else goFieldsAux (c :: acc) cs

/-- Embedding of `strings.Fields` on rune sequences. -/
def goFields (cs : List Char) : List (List Char) :=
  goFieldsAux [] cs

/-- The tokens `SentenceFields` emits for one whitespace-separated word: the
inner rune loop appends one single-rune token per punctuation rune of the
word, in order of occurrence, and sets the `end` flag; afterwards the word is
appended lower-cased, with its final byte removed exactly when the flag was
set. -/
def sentenceFieldsWord (w : List Char) : List (List Char) :=
  let ps := w.filter sentencePunct
  (ps.map (fun p => [p])) ++
    [if ps.isEmpty then w.map Char.toLower else w.dropLast.map Char.toLower]

/-- Embedding of `SentenceFields`: split the sentence into whitespace-
separated words and emit each word's tokens. -/
def SentenceFields (s : String) : List String :=
  ((goFields s.toList).flatMap sentenceFieldsWord).map (fun cs => String.mk cs)

/-- A locative preposition, the cases of the start-index switch of
`ExtractCities`. -/
def isLocPrep (s : String) : Bool :=
  s = r"at" ∨ s = r"in" ∨ s = r"on"

/-- Embedding of the start-index loop of `ExtractCities`: the loop body is a
switch whose matching case assigns the current index to `start`; its `break`
leaves the switch, not the loop, so every stem is visited and the final value
is the index of the last locative preposition, `0` when there is none. -/
def startIndexGo (stems : List String) : Nat :=
  stems.enum.foldl (fun start p => if isLocPrep p.2 then p.1 else start) 0

/-- Modelled from the words of the spec, for comparison with `startIndexGo`:
the index of the first locative preposition, `0` when there is none. -/
def specStartIndex (stems : List String) : Nat :=
  match stems.findIdx? isLocPrep with
  | some i => i
  | none => 0

/-- A word rune of the RE2 class backslash-w: ASCII letters, digits and
underscore. -/
def isWordCharGo (c : Char) : Bool :=
  (('a' ≤ c ∧ c ≤ 'z') ∨ ('A' ≤ c ∧ c ≤ 'Z') ∨ ('0' ≤ c ∧ c ≤ '9') ∨ c = '_' : Prop)

/-- A whitespace rune of the RE2 class backslash-s. -/
def goIsSpaceRE (c : Char) : Bool :=
  c = '\t' ∨ c = '\n' ∨ c = '\x0c' ∨ c = '\r' ∨ c = ' '

/-- Embedding of `regexNonWords.ReplaceAllString(s, ...)` with the empty
replacement: every rune that is neither a word rune nor whitespace is
removed. -/
def regexNonWordsStrip (s : String) : String :=
  String.mk (s.toList.filter (fun c => isWordCharGo c || goIsSpaceRE c))

/-- Embedding of `bigrams`: for each index from `startIndex` while a
successor exists, the word and its successor joined by one space. -/
def bigrams (words : List String) (startIndex : Nat) : List String :=
  ((words.drop startIndex).zip (words.drop (startIndex + 1))).map
    (fun p => p.1 ++ r" " ++ p.2)

/-- The candidate arguments `ExtractCities` assembles for the gazetteer
query: the unigrams of the re-tokenized, punctuation-stripped sentence from
the start index onward, followed by the bigrams from the same index. -/
def extractArgs (m : Msg) : List String :=
  let start := startIndexGo m.Stems
  let words := (goFields (regexNonWordsStrip m.Sentence).toList).map
    (fun cs => String.mk cs)
  words.drop start ++ bigrams words start

/-- One gazetteer row of the `cities` table. -/
structure City where
  Name : String
  CountryCode : String
  deriving DecidableEq, Repr

/-- Inserts a city into a list ordered by descending name length, keeping the
order stable. -/
def insertByLen (c : City) : List City → List City
  | [] => [c]
  | d :: ds =>
    if d.Name.length < c.Name.length then c :: d :: ds
    else d :: insertByLen c ds

/-- Orders rows by descending name length, the `ORDER BY LENGTH(name) DESC`
of the gazetteer query. -/
def orderByLengthDesc : List City → List City
  | [] => []
  | c :: cs => insertByLen c (orderByLengthDesc cs)

/-- The semantics of the gazetteer query: rows of the table whose country
code is `US` and whose name is among the candidate arguments, longest names
first. -/
def citiesQuery (gaz : List City) (args : List String) : List City :=
  orderByLengthDesc
    (gaz.filter (fun c => c.CountryCode == r"US" && args.contains c.Name))

/-- A storage layer that answers the gazetteer query from the table `gaz`
without failing. -/
def usCitiesDB (gaz : List City) : List String → Except Err (List City) :=
  fun args => Except.ok (citiesQuery gaz args)

/-- Embedding of `ExtractCities`: assemble the candidate arguments, run the
query against the storage layer `dbQuery` (any failure of the query or of
row scanning surfaces as its error), and collect the returned rows in order
starting from the empty list. -/
def ExtractCities (dbQuery : List String → Except Err (List City))
    (m : Msg) : Except Err (List City) :=
  match dbQuery (extractArgs m) with
  | Except.error e => Except.error e
  | Except.ok rows => Except.ok (rows.foldl (fun cities c => cities ++ [c]) [])

/-! ### Helper lemmas -/

/-- Rewriting one category never changes the length of any category list. -/
theorem rewriteCat_length (si : StructuredInput) (c : Category) (w ctx : String) :
    (rewriteCat si c w ctx).Objects.length = si.Objects.length
    ∧ (rewriteCat si c w ctx).Actors.length = si.Actors.length
    ∧ (rewriteCat si c w ctx).Times.length = si.Times.length
    ∧ (rewriteCat si c w ctx).Places.length = si.Places.length := by
  cases c <;> simp [rewriteCat]

/-- The resolution loop never changes the length of any category list. -/
theorem addContextLoop_length (db : List InputRecord) (u : Option User) :
    ∀ (ws : List String) (si : StructuredInput),
    ((addContextLoop db u si ws).1.Objects.length = si.Objects.length)
    ∧ ((addContextLoop db u si ws).1.Actors.length = si.Actors.length)
    ∧ ((addContextLoop db u si ws).1.Times.length = si.Times.length)
    ∧ ((addContextLoop db u si ws).1.Places.length = si.Places.length) := by
  intro ws
  induction ws with
  | nil => intro si; simp [addContextLoop]
  | cons w ws ih =>
    intro si
    unfold addContextLoop
    cases hP : Pronouns w with
    | none => simp
    | some c =>
      dsimp only
      cases hG : getContextObject db u si (catColumn c) with
      | error e => simp
      | ok ctx =>
        dsimp only
        by_cases hc : ctx = r""
        · simp [hc]
        · have h1 := ih (rewriteCat si c w ctx)
          have h2 := rewriteCat_length si c w ctx
          simp only [hc, if_false]
          exact ⟨h1.1.trans h2.1, h1.2.1.trans h2.2.1,
            h1.2.2.1.trans h2.2.2.1, h1.2.2.2.trans h2.2.2.2⟩

/-- On a whitespace-free rune sequence, the field splitter returns the
accumulated prefix joined with the sequence as its only field (or nothing
when both are empty). -/
theorem goFieldsAux_no_space :
    ∀ (cs : List Char), (∀ c ∈ cs, goIsSpace c = false) → ∀ (acc : List Char),
    goFieldsAux acc cs =
      if (acc.reverse ++ cs).isEmpty then [] else [acc.reverse ++ cs] := by
  intro cs
  induction cs with
  | nil => intro _ acc; simp [goFieldsAux]
  | cons c cs ih =>
    intro h acc
    have hc : goIsSpace c = false := h c (by simp)
    have h' : ∀ x ∈ cs, goIsSpace x = false := fun x hx => h x (by simp [hx])
    rw [goFieldsAux, hc]
    simp only [Bool.false_eq_true, if_false]
    rw [ih h' (c :: acc)]
    simp [List.reverse_cons, List.append_assoc]

/-! ### Claim theorems -/

/-- C1 (amended): with a valid category column, `getContextObject` for a
present user returns the empty string with no error when the first
qualifying turn's requested category sequence is empty; but when no
qualifying turn exists it returns the no-rows error of `db.Get`
(`sql.ErrNoRows`), not an empty string. -/
theorem claim_C1_lookup_results :
    (∀ (db : List InputRecord) (usr : User) (si : StructuredInput)
      (d : String) (c : Category), columnOf d = some c →
      qualifying db usr.ID = [] →
      getContextObject db (some usr) si d = Except.error Err.noRows)
    ∧ (∀ (db : List InputRecord) (usr : User) (si : StructuredInput)
      (d : String) (c : Category) (row : InputRecord) (rest : List InputRecord),
      columnOf d = some c → qualifying db usr.ID = row :: rest →
      recColumn row c = [] →
      getContextObject db (some usr) si d = Except.ok (r"")) := by
  constructor
  · intro db usr si d c hcol hq
    simp [getContextObject, hcol, hq]
  · intro db usr si d c row rest hcol hq hcat
    simp [getContextObject, hcol, hq, hcat, StringSlice.Last]

/-- C1 witness: concrete runs of both amended branches. -/
theorem claim_C1_lookup_results_witness :
    getContextObject [] (some (User.mk 1)) (StructuredInput.mk [] [] [] [] [])
      (r"objects") = Except.error Err.noRows
    ∧ getContextObject [InputRecord.mk 1 [r"shirt"] [] [] []] (some (User.mk 1))
      (StructuredInput.mk [] [] [] [] []) (r"times") = Except.ok (r"") := by
  constructor
  · exact claim_C1_lookup_results.1 [] (User.mk 1)
      (StructuredInput.mk [] [] [] [] []) (r"objects") Category.ObjectI
      (by rfl) (by rfl)
  · exact claim_C1_lookup_results.2 [InputRecord.mk 1 [r"shirt"] [] [] []]
      (User.mk 1) (StructuredInput.mk [] [] [] [] []) (r"times")
      Category.TimeI (InputRecord.mk 1 [r"shirt"] [] [] []) []
      (by rfl) (by rfl) (by rfl)

/-- C1 counterexample: for a user with no qualifying historical turn, the
lookup returns the no-rows error, not the empty string the claim asserts. -/
theorem claim_C1_counterexample :
    getContextObject [] (some (User.mk 1)) (StructuredInput.mk [] [] [] [] [])
      (r"objects") = Except.error Err.noRows
    ∧ getContextObject [] (some (User.mk 1)) (StructuredInput.mk [] [] [] [] [])
      (r"objects") ≠ Except.ok (r"") := by
  refine ⟨rfl, ?_⟩
  intro h
  exact Except.noConfusion h

/-- C2: on the stem sequence with locative prepositions at indices 1 and 3,
the start-index loop of `ExtractCities` yields 3 — the index of the last
preposition, because its `break` leaves only the switch — while the spec's
first-occurrence rule yields 1. -/
theorem claim_C2_code_at_failing_input :
    startIndexGo [r"meet", r"in", r"paris", r"on", r"friday"] = 3
    ∧ specStartIndex [r"meet", r"in", r"paris", r"on", r"friday"] = 1
    ∧ (3 : Nat) ≠ 1 := by
  refine ⟨rfl, rfl, by decide⟩

/-- C3: when the antecedent lookup for a pronoun yields the empty string, the
resolution loop stops at that pronoun, processes none of the later pronouns,
reports no error, and returns the StructuredInput exactly as mutated so
far. -/
theorem claim_C3_empty_antecedent_halts (db : List InputRecord)
    (u : Option User) (si : StructuredInput) (w : String) (ws : List String)
    (c : Category) (hc : Pronouns w = some c)
    (hl : getContextObject db u si (catColumn c) = Except.ok (r"")) :
    addContextLoop db u si (w :: ws) = (si, none) := by
  simp [addContextLoop, hc, hl]

/-- C3 witness: a time pronoun whose qualifying turn has an empty Times list
halts the pass silently, leaving later pronouns unprocessed. -/
theorem claim_C3_empty_antecedent_halts_witness :
    addContextLoop [InputRecord.mk 1 [r"x"] [] [] []] (some (User.mk 1))
      (StructuredInput.mk [] [] [r"then"] [] [r"then", r"it"])
      ([r"then", r"it"]) =
    (StructuredInput.mk [] [] [r"then"] [] [r"then", r"it"], none) :=
  claim_C3_empty_antecedent_halts [InputRecord.mk 1 [r"x"] [] [] []]
    (some (User.mk 1)) (StructuredInput.mk [] [] [r"then"] [] [r"then", r"it"])
    (r"then") ([r"it"]) Category.TimeI (by rfl) (by rfl)

/-- C4: a pronoun token absent from the fixed pronoun-category table makes
the resolution loop fail at that pronoun with the unknown-pronoun error,
returning the StructuredInput as mutated so far and processing no later
pronoun — never a silent no-op. -/
theorem claim_C4_unknown_pronoun (db : List InputRecord) (u : Option User)
    (si : StructuredInput) (w : String) (ws : List String)
    (h : Pronouns w = none) :
    addContextLoop db u si (w :: ws) = (si, some Err.unknownPronoun) := by
  simp [addContextLoop, h]

/-- C4 witness: an out-of-vocabulary token aborts the pass with the
unknown-pronoun error. -/
theorem claim_C4_unknown_pronoun_witness :
    addContextLoop [] (some (User.mk 1)) (StructuredInput.mk [] [] [] [] [])
      ([r"xyzzy", r"it"]) =
    (StructuredInput.mk [] [] [] [] [], some Err.unknownPronoun) :=
  claim_C4_unknown_pronoun [] (some (User.mk 1))
    (StructuredInput.mk [] [] [] [] []) (r"xyzzy") ([r"it"]) (by rfl)

/-- C5 (amended): for a nonempty whitespace-free input word, `SentenceFields`
emits one single-character token per punctuation character occurring anywhere
in the word (not only trailing), in order of occurrence and before the word
token; the word token is lower-cased and, whenever the word contained any
punctuation character, has exactly its final character removed, wherever the
punctuation occurred. -/
theorem claim_C5_tokenizer (s : String) (hne : s.toList ≠ [])
    (hsp : ∀ c ∈ s.toList, goIsSpace c = false) :
    SentenceFields s =
      ((s.toList.filter sentencePunct).map (fun p => String.mk [p])) ++
      [String.mk ((if (s.toList.filter sentencePunct).isEmpty then s.toList
        else s.toList.dropLast).map Char.toLower)] := by
  unfold SentenceFields goFields
  rw [goFieldsAux_no_space s.toList hsp []]
  simp only [List.reverse_nil, List.nil_append, List.isEmpty_iff, hne, if_false]
  simp only [List.flatMap_cons, List.flatMap_nil, List.append_nil,
    sentenceFieldsWord, List.map_append, List.map_map]
  simp only [List.isEmpty_iff]
  by_cases hp : List.filter sentencePunct s.toList = []
  · rw [if_pos hp, if_pos hp]
    simp [Function.comp]
  · rw [if_neg hp, if_neg hp]
    simp [Function.comp, List.map_dropLast]

/-- C5 witness: on a concrete word with two trailing punctuation marks, the
punctuation tokens come first and the word token keeps one of them. -/
theorem claim_C5_tokenizer_witness :
    SentenceFields (r"Hi!?") = [r"!", r"?", r"hi!"] := by
  have h := claim_C5_tokenizer (r"Hi!?") (by decide) (by decide)
  rw [h]
  rfl

/-- C5 counterexample: the word has no trailing punctuation, yet the comma in
its middle is emitted as a token and the final character of the word is
dropped, so the output is not the lower-cased word. -/
theorem claim_C5_counterexample :
    SentenceFields (r"a,b") = [r",", r"a,"]
    ∧ SentenceFields (r"a,b") ≠ [r"a,b"] := by
  refine ⟨rfl, ?_⟩
  decide

/-- C6: when a pronoun resolves to a non-empty antecedent, the resolution
loop continues on the StructuredInput in which every element of that
pronoun's category list equal to the pronoun token is replaced by the
antecedent, while the other three category lists and the pronoun tokens are
untouched. -/
theorem claim_C6_rewrite (db : List InputRecord) (u : Option User)
    (si : StructuredInput) (w ctx : String) (c : Category) (ws : List String)
    (hc : Pronouns w = some c)
    (hl : getContextObject db u si (catColumn c) = Except.ok ctx)
    (hne : ctx ≠ r"") :
    addContextLoop db u si (w :: ws) =
      addContextLoop db u (rewriteCat si c w ctx) ws
    ∧ catList (rewriteCat si c w ctx) c =
      (catList si c).map (fun o => if o = w then ctx else o)
    ∧ (∀ c2 : Category, c2 ≠ c →
      catList (rewriteCat si c w ctx) c2 = catList si c2)
    ∧ (rewriteCat si c w ctx).Pronouns = si.Pronouns := by
  refine ⟨by simp [addContextLoop, hc, hl, hne], ?_, ?_, ?_⟩
  · cases c <;> simp [rewriteCat, catList]
  · intro c2 h2
    cases c <;> cases c2 <;> simp_all [rewriteCat, catList]
  · cases c <;> simp [rewriteCat]

/-- C6 witness: with a qualifying turn holding Objects equal to the red
shirt, the object pronoun occurrence in Objects is rewritten to it, Pronouns
and the other lists being untouched. -/
theorem claim_C6_rewrite_witness :
    addContextLoop [InputRecord.mk 1 [r"the red shirt"] [] [] []]
      (some (User.mk 1)) (StructuredInput.mk [r"it"] [] [] [] [r"it"])
      ([r"it"]) =
    (StructuredInput.mk [r"the red shirt"] [] [] [] [r"it"], none) := by
  have h := claim_C6_rewrite [InputRecord.mk 1 [r"the red shirt"] [] [] []]
    (some (User.mk 1)) (StructuredInput.mk [r"it"] [] [] [] [r"it"])
    (r"it") (r"the red shirt") Category.ObjectI []
    (by rfl) (by rfl) (by decide)
  rw [h.1]
  rfl

/-- C7: on a StructuredInput whose pronoun set is empty, `addContext` is a
no-op: it returns the same message and no error. -/
theorem claim_C7_no_pronouns (db : List InputRecord) (m : Msg)
    (h : m.StructuredInput.Pronouns = []) :
    addContext db m = (m, none) := by
  unfold addContext
  rw [h]
  rfl

/-- C7 witness: a concrete pronoun-free message is returned unchanged. -/
theorem claim_C7_no_pronouns_witness :
    addContext []
      (Msg.mk (r"hello") none (StructuredInput.mk [r"a"] [] [] [] []) []) =
    (Msg.mk (r"hello") none (StructuredInput.mk [r"a"] [] [] [] []) [],
      none) :=
  claim_C7_no_pronouns []
    (Msg.mk (r"hello") none (StructuredInput.mk [r"a"] [] [] [] []) [])
    (by rfl)

/-- C8: with no user reference, `getContextObject` returns `ErrMissingUser`
for every store and every requested column — the store is never consulted —
and the resolution loop reaching any pronoun of known category returns that
error with the StructuredInput as mutated so far. -/
theorem claim_C8_missing_user :
    (∀ (db : List InputRecord) (si : StructuredInput) (d : String),
      getContextObject db none si d = Except.error Err.missingUser)
    ∧ (∀ (db : List InputRecord) (si : StructuredInput) (w : String)
      (ws : List String) (c : Category), Pronouns w = some c →
      addContextLoop db none si (w :: ws) = (si, some Err.missingUser)) := by
  constructor
  · intro db si d
    rfl
  · intro db si w ws c hc
    simp [addContextLoop, hc, getContextObject]

/-- C8 witness: a concrete lookup and a concrete resolution pass, both
without a user, produce the missing-user error. -/
theorem claim_C8_missing_user_witness :
    getContextObject [InputRecord.mk 1 [r"x"] [] [] []] none
      (StructuredInput.mk [] [] [] [] []) (r"objects") =
      Except.error Err.missingUser
    ∧ addContextLoop [InputRecord.mk 1 [r"x"] [] [] []] none
      (StructuredInput.mk [r"it"] [] [] [] [r"it"]) ([r"it"]) =
      (StructuredInput.mk [r"it"] [] [] [] [r"it"], some Err.missingUser) :=
  ⟨claim_C8_missing_user.1 [InputRecord.mk 1 [r"x"] [] [] []]
      (StructuredInput.mk [] [] [] [] []) (r"objects"),
    claim_C8_missing_user.2 [InputRecord.mk 1 [r"x"] [] [] []]
      (StructuredInput.mk [r"it"] [] [] [] [r"it"]) (r"it") []
      Category.ObjectI (by rfl)⟩

/-- C9: when no generated candidate names a gazetteer entry, `ExtractCities`
returns the empty list and no error; and any error it returns is exactly an
error of the storage layer on the assembled candidate list. -/
theorem claim_C9_no_match :
    (∀ (gaz : List City) (m : Msg), (∀ c ∈ gaz, c.Name ∉ extractArgs m) →
      ExtractCities (usCitiesDB gaz) m = Except.ok [])
    ∧ (∀ (q : List String → Except Err (List City)) (m : Msg) (e : Err),
      ExtractCities q m = Except.error e →
      q (extractArgs m) = Except.error e) := by
  constructor
  · intro gaz m h
    have hf : gaz.filter
        (fun c => c.CountryCode == r"US" && (extractArgs m).contains c.Name)
        = [] := by
      rw [List.filter_eq_nil_iff]
      intro c hc
      simp [h c hc]
    unfold ExtractCities usCitiesDB citiesQuery
    rw [hf]
    rfl
  · intro q m e h
    unfold ExtractCities at h
    cases hq : q (extractArgs m) with
    | error e2 => rw [hq] at h; simp_all
    | ok rows => rw [hq] at h; simp_all

/-- C9 witness: a sentence whose candidates miss the gazetteer yields the
empty list without error, and a failing storage layer is the only source of
an error. -/
theorem claim_C9_no_match_witness :
    ExtractCities (usCitiesDB [City.mk (r"Paris") (r"US")])
      (Msg.mk (r"hello world") none (StructuredInput.mk [] [] [] [] []) [])
      = Except.ok []
    ∧ (fun _ => Except.error (Err.storage (r"down")) :
        List String → Except Err (List City))
      (extractArgs
        (Msg.mk (r"hello world") none (StructuredInput.mk [] [] [] [] []) []))
      = Except.error (Err.storage (r"down")) :=
  ⟨claim_C9_no_match.1 [City.mk (r"Paris") (r"US")]
      (Msg.mk (r"hello world") none (StructuredInput.mk [] [] [] [] []) [])
      (by decide),
    claim_C9_no_match.2 (fun _ => Except.error (Err.storage (r"down")))
      (Msg.mk (r"hello world") none (StructuredInput.mk [] [] [] [] []) [])
      (Err.storage (r"down")) (by rfl)⟩

/-- C10: on every path, success or error, `addContext` preserves the length
of each of the four category lists of the StructuredInput. -/
theorem claim_C10_category_lengths (db : List InputRecord) (m : Msg) :
    ((addContext db m).1.StructuredInput.Objects.length =
      m.StructuredInput.Objects.length)
    ∧ ((addContext db m).1.StructuredInput.Actors.length =
      m.StructuredInput.Actors.length)
    ∧ ((addContext db m).1.StructuredInput.Times.length =
      m.StructuredInput.Times.length)
    ∧ ((addContext db m).1.StructuredInput.Places.length =
      m.StructuredInput.Places.length) := by
  have h := addContextLoop_length db m.User m.StructuredInput.Pronouns
    m.StructuredInput
  simpa [addContext] using h

end Abot
